import Mathlib

/-!
Shallow embedding of the EncryptedCardGame contracts (Solidity, FHEVM).

The repository contains three contract artifacts:
* a first `EncryptedCardGameV2` variant (multi-game, `Card[6][2]` decks accessed
  as `cards[cardIndex][playerIndex]`), embedded in namespace `V1`;
* a second `EncryptedCardGameV2` variant (multi-game, decks accessed as
  `cards[playerIndex][cardIndex]`), embedded in namespace `V2`;
* an extended `EncryptedCardGame` (single game, oblivious index selection,
  health tie-break, `battleResults : euint8[2]`), embedded in namespace `Ext`.

Confidential (FHE) values are modelled by their plaintexts: `euint8` as `Nat`,
`ebool` as `Bool`; the FHE primitives (`eq`, `and`, `or`, `select`, ...) are
their plaintext semantics, which is what the mock FHEVM used by the test suite
computes.  Input proofs are assumed valid (proof checking lives outside the
repository); `FHE.fromExternal` therefore yields the submitted plaintext.
Solidity reverts are modelled with `Except String`: a call either returns the
new contract state or an error, and an erroring call leaves the pre-state
untouched (EVM rollback).  Checked `uint8` arithmetic and fixed-size-array
bounds checks are modelled explicitly with `panic:`-prefixed errors.
-/

namespace CardGame

namespace FHE

def eq (a b : Nat) : Bool := a == b

def or (a b : Bool) : Bool := a || b

def and (a b : Bool) : Bool := a && b

def select (c : Bool) (a b : Nat) : Nat := if c then a else b

def selectb (c a b : Bool) : Bool := if c then a else b

def asEuint8 (n : Nat) : Nat := n % 256

def asEbool (b : Bool) : Bool := b

def ge (a b : Nat) : Bool := decide (b ≤ a)

def le (a b : Nat) : Bool := decide (a ≤ b)

def gt (a b : Nat) : Bool := decide (b < a)

def add (a b : Nat) : Nat := (a + b) % 256

end FHE

/-- Game lifecycle states, `enum GameState { Waiting, Playing, Finished }`. -/
inductive GState where
  | Waiting
  | Playing
  | Finished
deriving DecidableEq

/-- A card slot: confidential type plaintext, health, alive flag.  In `V1`/`V2`
the health and alive flag are plaintext `uint8`/`bool`; in `Ext` they are
encrypted, but the plaintext model is the same shape. -/
structure Card where
  cardType : Nat
  health : Nat
  isAlive : Bool
deriving DecidableEq

instance : Inhabited Card := ⟨⟨0, 0, false⟩⟩

/-- Read slot `i` of a two-element Solidity array modelled as a pair.  All
source accesses guard `i < 2`. -/
def getP {α : Type} (p : α × α) : Nat → α
  | 0 => p.1
  | _ + 1 => p.2

/-- Write slot `i` of a two-element Solidity array modelled as a pair. -/
def setP {α : Type} (p : α × α) : Nat → α → α × α
  | 0, a => (a, p.2)
  | _ + 1, a => (p.1, a)

namespace V2

/-- The `Game` struct of the second `EncryptedCardGameV2` variant.
`cards` is `Card[6][2]` indexed `[playerIndex][cardIndex]`: a pair of 6-card
decks. -/
structure Game where
  state : GState
  players : Nat × Nat
  playersJoined : Nat
  currentRound : Nat
  cards : List Card × List Card
  aliveCount : Nat × Nat
  currentPlayedCards : Nat × Nat
  hasPlayedCard : Bool × Bool
  winner : Nat
deriving DecidableEq

/-- Default storage value of a `Game`: everything zeroed, decks of six
zero-initialized cards. -/
def defaultGame : Game :=
  { state := GState.Waiting
    players := (0, 0)
    playersJoined := 0
    currentRound := 0
    cards := (List.replicate 6 default, List.replicate 6 default)
    aliveCount := (0, 0)
    currentPlayedCards := (0, 0)
    hasPlayedCard := (false, false)
    winner := 0 }

/-- Contract-level storage: `nextGameId`, the `games` mapping and the
`playerToGame` mapping (addresses modelled as `Nat`, `0` = zero address). -/
structure CState where
  nextGameId : Nat
  games : Nat → Game
  playerToGame : Nat → Nat

/-- Freshly deployed contract. -/
def initState : CState :=
  { nextGameId := 0, games := fun _ => defaultGame, playerToGame := fun _ => 0 }

/-- Result of ingesting one submitted card type: the type is obliviously
normalized into {0,1,2} (out-of-range values become 0), health fixed at 2 and
the card starts alive (joinGame loop body, lines 396-413). -/
def newCard (v : Nat) : Card :=
  let validType1 := FHE.eq v 0
  let validType2 := FHE.eq v 1
  let validType3 := FHE.eq v 2
  let isValidType := FHE.or (FHE.or validType1 validType2) validType3
  { cardType := FHE.select isValidType v (FHE.asEuint8 0), health := 2, isAlive := true }

/-- The join loop `for i in 0..5` writing each slot of the joining player's
deck in storage. -/
def initDeck (inputs : Nat → Nat) (old : List Card) : List Card :=
  (List.range 6).foldl (fun d i => d.set i (newCard (inputs i))) old

/-- `createGame()` of the second variant: requires the caller to hold no
unfinished game, allocates `nextGameId`, initializes the game in `Waiting`.
This variant deliberately does not touch `playerToGame`. -/
def createGame (s : CState) (caller : Nat) : Except String (Nat × CState) :=
  if ¬ (s.playerToGame caller = 0 ∨ (s.games (s.playerToGame caller)).state = GState.Finished) then
    .error "Already in a game"
  else
    let gameId := s.nextGameId
    let g := s.games gameId
    let g := { g with state := GState.Waiting, playersJoined := 0, currentRound := 0 }
    .ok (gameId, { s with nextGameId := gameId + 1, games := Function.update s.games gameId g })

/-- The successful branch of `joinGame`. -/
def joinApply (s : CState) (caller gameId : Nat) (inputs : Nat → Nat) : CState :=
  let g := s.games gameId
  let playerIndex := g.playersJoined
  let g := { g with players := setP g.players playerIndex caller,
                    aliveCount := setP g.aliveCount playerIndex 6 }
  let ptg := Function.update s.playerToGame caller gameId
  let g := { g with cards := setP g.cards playerIndex (initDeck inputs (getP g.cards playerIndex)) }
  let g := { g with playersJoined := g.playersJoined + 1 }
  let g := if g.playersJoined = 2 then { g with state := GState.Playing } else g
  { s with games := Function.update s.games gameId g, playerToGame := ptg }

/-- `joinGame(gameId, encryptedCardTypes, inputProof)` of the second variant.
Modifier order is `gameExists` then `onlyInGameState(Waiting)`, then the body
checks in source order. -/
def joinGame (s : CState) (caller gameId : Nat) (inputs : Nat → Nat) : Except String CState :=
  if ¬ gameId < s.nextGameId then .error "Game does not exist"
  else if ¬ (s.games gameId).state = GState.Waiting then .error "Invalid game state"
  else if 2 ≤ (s.games gameId).playersJoined then .error "Game is full"
  else if (s.games gameId).players.1 = caller ∨ (s.games gameId).players.2 = caller then
    .error "Already joined this game"
  else if s.playerToGame caller ≠ 0 ∧ (s.games (s.playerToGame caller)).state ≠ GState.Finished then
    .error "Already in another game"
  else if 2 ≤ (s.games gameId).playersJoined then .error "Player index out of bounds"
  else .ok (joinApply s caller gameId inputs)

/-- The `player1Wins` circuit of `processBattle` (lines 483-489):
Eagle(0) beats Snake(2), Bear(1) beats Eagle(0), Snake(2) beats Bear(1). -/
def player1Wins (card1Type card2Type : Nat) : Bool :=
  FHE.or
    (FHE.or (FHE.and (FHE.eq card1Type 0) (FHE.eq card2Type 2))
            (FHE.and (FHE.eq card1Type 1) (FHE.eq card2Type 0)))
    (FHE.and (FHE.eq card1Type 2) (FHE.eq card2Type 1))

/-- The `player2Wins` circuit of `processBattle` (lines 492-498): the same
three terms with the two operands swapped. -/
def player2Wins (card1Type card2Type : Nat) : Bool :=
  FHE.or
    (FHE.or (FHE.and (FHE.eq card2Type 0) (FHE.eq card1Type 2))
            (FHE.and (FHE.eq card2Type 1) (FHE.eq card1Type 0)))
    (FHE.and (FHE.eq card2Type 2) (FHE.eq card1Type 1))

/-- Mutations of `processBattle` up to the end-of-game check: both played
cards die unconditionally, both alive counts are decremented, flags reset,
round incremented (lines 500-510). -/
def battleKill (g : Game) (c1 c2 : Card) : Game :=
  { g with
      cards := (g.cards.1.set g.currentPlayedCards.1 { c1 with isAlive := false },
                g.cards.2.set g.currentPlayedCards.2 { c2 with isAlive := false }),
      aliveCount := (g.aliveCount.1 - 1, g.aliveCount.2 - 1),
      hasPlayedCard := (false, false),
      currentRound := g.currentRound + 1 }

/-- The winner assignment of the end-of-game check: the winner is set only on
a strict alive-count majority, otherwise left as it was (lines 515-519). -/
def finishWinner (g : Game) : Game :=
  if g.aliveCount.2 < g.aliveCount.1 then { g with winner := g.players.1 }
  else if g.aliveCount.1 < g.aliveCount.2 then { g with winner := g.players.2 }
  else g

/-- The end-of-game check of `processBattle` (lines 512-522). -/
def battleFinish (g : Game) : Game :=
  if g.aliveCount.1 = 0 ∨ g.aliveCount.2 = 0 then
    finishWinner { g with state := GState.Finished }
  else g

/-- `processBattle` of the second variant.  The confidential `player1Wins` /
`player2Wins` circuits (lines 483-498) are computed by the source but their
results are dead values under the both-cards-die rule; they are embedded as
the standalone definitions above.  The two deck reads and the checked `uint8`
decrements/increment are modelled with explicit bounds/underflow/overflow
errors. -/
def processBattle (g : Game) : Except String Game :=
  match g.cards.1.get? g.currentPlayedCards.1, g.cards.2.get? g.currentPlayedCards.2 with
  | some c1, some c2 =>
    if g.aliveCount.1 = 0 then .error "panic: arithmetic underflow"
    else if g.aliveCount.2 = 0 then .error "panic: arithmetic underflow"
    else if 255 ≤ g.currentRound then .error "panic: arithmetic overflow"
    else .ok (battleFinish (battleKill g c1 c2))
  | _, _ => .error "panic: array index out of bounds"

/-- Slot of the caller inside a game: `(msg.sender == game.players[0]) ? 0 : 1`. -/
def playerIndexOf (s : CState) (gameId caller : Nat) : Nat :=
  if caller = (s.games gameId).players.1 then 0 else 1

/-- The game record after recording the caller's played card and flag. -/
def playSet (s : CState) (caller gameId cardIndex : Nat) : Game :=
  { s.games gameId with
      currentPlayedCards :=
        setP (s.games gameId).currentPlayedCards (playerIndexOf s gameId caller) cardIndex,
      hasPlayedCard := setP (s.games gameId).hasPlayedCard (playerIndexOf s gameId caller) true }

/-- `playCard(gameId, cardIndex)` of the second variant.  Modifier order is
`gameExists`, `onlyGamePlayer`, `onlyInGameState(Playing)`; if both flags are
now set, `processBattle` runs inside the same call. -/
def playCard (s : CState) (caller gameId cardIndex : Nat) : Except String CState :=
  if ¬ gameId < s.nextGameId then .error "Game does not exist"
  else if ¬ (caller = (s.games gameId).players.1 ∨ caller = (s.games gameId).players.2) then
    .error "Not a player in this game"
  else if ¬ (s.games gameId).state = GState.Playing then .error "Invalid game state"
  else if ¬ cardIndex < 6 then .error "Invalid card index"
  else if ¬ ((getP (s.games gameId).cards (playerIndexOf s gameId caller)).getD cardIndex
      default).isAlive then
    .error "Card is dead"
  else if getP (s.games gameId).hasPlayedCard (playerIndexOf s gameId caller) then
    .error "Already played this round"
  else if (playSet s caller gameId cardIndex).hasPlayedCard.1 &&
      (playSet s caller gameId cardIndex).hasPlayedCard.2 then
    match processBattle (playSet s caller gameId cardIndex) with
    | .ok g2 => .ok { s with games := Function.update s.games gameId g2 }
    | .error e => .error e
  else .ok { s with games := Function.update s.games gameId (playSet s caller gameId cardIndex) }

/-- `getGameInfo` view: state, round, joined, both player addresses. -/
def getGameInfo (s : CState) (gameId : Nat) : Except String (GState × Nat × Nat × Nat × Nat) :=
  if ¬ gameId < s.nextGameId then .error "Game does not exist"
  else
    let g := s.games gameId
    .ok (g.state, g.currentRound, g.playersJoined, g.players.1, g.players.2)

/-- `getPlayerCards` view of the second variant (no authorization check). -/
def getPlayerCards (s : CState) (gameId playerIndex : Nat) :
    Except String (List Nat × List Nat × List Bool) :=
  if ¬ gameId < s.nextGameId then .error "Game does not exist"
  else if ¬ playerIndex < 2 then .error "Invalid player index"
  else
    let deck := getP (s.games gameId).cards playerIndex
    .ok (deck.map (·.cardType), deck.map (·.health), deck.map (·.isAlive))

/-- `getAliveCount` view of the second variant. -/
def getAliveCount (s : CState) (gameId playerIndex : Nat) : Except String Nat :=
  if ¬ gameId < s.nextGameId then .error "Game does not exist"
  else if ¬ playerIndex < 2 then .error "Invalid player index"
  else .ok (getP (s.games gameId).aliveCount playerIndex)

/-- Run `createGame`, keeping the old state on revert. -/
def stepCreate (s : CState) (caller : Nat) : CState :=
  match createGame s caller with
  | .ok (_, s1) => s1
  | .error _ => s

/-- Run `joinGame`, keeping the old state on revert. -/
def stepJoin (s : CState) (caller gameId : Nat) (inputs : Nat → Nat) : CState :=
  match joinGame s caller gameId inputs with
  | .ok s1 => s1
  | .error _ => s

/-- Run `playCard`, keeping the old state on revert. -/
def stepPlay (s : CState) (caller gameId cardIndex : Nat) : CState :=
  match playCard s caller gameId cardIndex with
  | .ok s1 => s1
  | .error _ => s

/-- States reachable from deployment by any sequence of successful
`createGame`, `joinGame` and `playCard` calls (reverting calls do not change
state, so they need no step). -/
inductive Reachable : CState → Prop where
  | init : Reachable initState
  | create (s : CState) (caller gid : Nat) (s2 : CState) :
      Reachable s → createGame s caller = .ok (gid, s2) → Reachable s2
  | join (s : CState) (caller gid : Nat) (inputs : Nat → Nat) (s2 : CState) :
      Reachable s → joinGame s caller gid inputs = .ok s2 → Reachable s2
  | play (s : CState) (caller gid idx : Nat) (s2 : CState) :
      Reachable s → playCard s caller gid idx = .ok s2 → Reachable s2

/-- Number of alive cards in a deck. -/
def aliveOf (deck : List Card) : Nat := deck.countP (fun c => c.isAlive)

theorem initDeck_eq (inputs : Nat → Nat) (d : List Card) (h : d.length = 6) :
    initDeck inputs d =
      [newCard (inputs 0), newCard (inputs 1), newCard (inputs 2),
       newCard (inputs 3), newCard (inputs 4), newCard (inputs 5)] := by
  cases d with
  | nil => simp at h
  | cons c0 d =>
    cases d with
    | nil => simp at h
    | cons c1 d =>
      cases d with
      | nil => simp at h
      | cons c2 d =>
        cases d with
        | nil => simp at h
        | cons c3 d =>
          cases d with
          | nil => simp at h
          | cons c4 d =>
            cases d with
            | nil => simp at h
            | cons c5 d =>
              cases d with
              | nil => rfl
              | cons c6 d => simp at h

theorem initDeck_length (inputs : Nat → Nat) (d : List Card) (h : d.length = 6) :
    (initDeck inputs d).length = 6 := by
  rw [initDeck_eq inputs d h]; rfl

theorem aliveOf_initDeck (inputs : Nat → Nat) (d : List Card) (h : d.length = 6) :
    aliveOf (initDeck inputs d) = 6 := by
  rw [initDeck_eq inputs d h]; rfl

theorem getD_initDeck (inputs : Nat → Nat) (d : List Card) (h : d.length = 6)
    (i : Nat) (hi : i < 6) :
    (initDeck inputs d).getD i default = newCard (inputs i) := by
  rw [initDeck_eq inputs d h]
  interval_cases i <;> rfl

theorem aliveOf_set_kill (d : List Card) (i : Nat) (c : Card)
    (hc : d.get? i = some c) (ha : c.isAlive = true) :
    aliveOf (d.set i { c with isAlive := false }) + 1 = aliveOf d := by
  induction d generalizing i with
  | nil => simp at hc
  | cons hd tl ih =>
    cases i with
    | zero =>
      simp only [List.get?] at hc
      cases hc
      simp [aliveOf, List.countP_cons, ha]
    | succ j =>
      simp only [List.get?] at hc
      have := ih j hc
      simp only [List.set, aliveOf, List.countP_cons]
      simp only [aliveOf] at this
      omega

/-- Per-game inductive invariant for the second `EncryptedCardGameV2` variant. -/
structure GInv (g : Game) : Prop where
  len1 : g.cards.1.length = 6
  len2 : g.cards.2.length = 6
  cnt1 : g.aliveCount.1 = aliveOf g.cards.1
  cnt2 : g.aliveCount.2 = aliveOf g.cards.2
  played1 : g.hasPlayedCard.1 = true →
    g.currentPlayedCards.1 < 6 ∧ (g.cards.1.getD g.currentPlayedCards.1 default).isAlive = true
  played2 : g.hasPlayedCard.2 = true →
    g.currentPlayedCards.2 < 6 ∧ (g.cards.2.getD g.currentPlayedCards.2 default).isAlive = true
  waitFlags : g.state = GState.Waiting → g.hasPlayedCard = (false, false)
  waitJoin : g.state = GState.Waiting →
    g.playersJoined ≤ 1 ∧ (g.playersJoined = 1 → g.aliveCount.1 = 6)
  eqCounts : g.state ≠ GState.Waiting → g.aliveCount.1 = g.aliveCount.2
  notFinWinner : g.state ≠ GState.Finished → g.winner = 0
  finTie : g.state = GState.Finished →
    g.aliveCount.1 = 0 ∧ g.aliveCount.2 = 0 ∧ g.winner = 0

/-- Contract-level inductive invariant. -/
structure Inv (s : CState) : Prop where
  fresh : ∀ gid, s.nextGameId ≤ gid → s.games gid = defaultGame
  ginv : ∀ gid, GInv (s.games gid)

theorem ginv_default : GInv defaultGame := by
  constructor <;> simp [defaultGame, aliveOf]

theorem inv_init : Inv initState :=
  ⟨fun _ _ => rfl, fun _ => ginv_default⟩

theorem inv_create (s : CState) (caller gid : Nat) (s2 : CState)
    (hI : Inv s) (h : createGame s caller = .ok (gid, s2)) : Inv s2 := by
  unfold createGame at h
  split_ifs at h with h1
  simp only [Except.ok.injEq, Prod.mk.injEq] at h
  obtain ⟨hgid, hs2⟩ := h
  subst hs2
  constructor
  · intro g hg
    dsimp only at hg ⊢
    rw [Function.update_noteq (by omega)]
    exact hI.fresh g (by omega)
  · intro g
    dsimp only
    by_cases hgg : g = s.nextGameId
    · subst hgg
      rw [Function.update_same, hI.fresh s.nextGameId le_rfl]
      exact ginv_default
    · rw [Function.update_noteq hgg]
      exact hI.ginv g

theorem joinApply_eq0 (s : CState) (caller gid : Nat) (inputs : Nat → Nat)
    (hj : (s.games gid).playersJoined = 0) :
    joinApply s caller gid inputs =
      { s with
        games := Function.update s.games gid
          { s.games gid with
              players := (caller, (s.games gid).players.2),
              aliveCount := (6, (s.games gid).aliveCount.2),
              cards := (initDeck inputs (s.games gid).cards.1, (s.games gid).cards.2),
              playersJoined := 1 },
        playerToGame := Function.update s.playerToGame caller gid } := by
  simp [joinApply, hj, setP, getP]

theorem joinApply_eq1 (s : CState) (caller gid : Nat) (inputs : Nat → Nat)
    (hj : (s.games gid).playersJoined = 1) :
    joinApply s caller gid inputs =
      { s with
        games := Function.update s.games gid
          { s.games gid with
              players := ((s.games gid).players.1, caller),
              aliveCount := ((s.games gid).aliveCount.1, 6),
              cards := ((s.games gid).cards.1, initDeck inputs (s.games gid).cards.2),
              playersJoined := 2,
              state := GState.Playing },
        playerToGame := Function.update s.playerToGame caller gid } := by
  simp [joinApply, hj, setP, getP]

theorem inv_join (s : CState) (caller gid : Nat) (inputs : Nat → Nat) (s2 : CState)
    (hI : Inv s) (h : joinGame s caller gid inputs = .ok s2) : Inv s2 := by
  unfold joinGame at h
  split_ifs at h with h1 h2 h3 h4 h5
  simp only [Except.ok.injEq] at h
  subst h
  have G := hI.ginv gid
  have hW : (s.games gid).state = GState.Waiting := h2
  have hflags := G.waitFlags hW
  have hwj := G.waitJoin hW
  rcases (by omega : (s.games gid).playersJoined = 0 ∨ (s.games gid).playersJoined = 1) with hj0 | hj1
  · rw [joinApply_eq0 s caller gid inputs hj0]
    constructor
    · intro g hg
      dsimp only at hg ⊢
      rw [Function.update_noteq (by omega)]
      exact hI.fresh g hg
    · intro g
      dsimp only
      by_cases hgg : g = gid
      · subst hgg
        rw [Function.update_same]
        constructor
        · exact initDeck_length _ _ G.len1
        · exact G.len2
        · exact (aliveOf_initDeck _ _ G.len1).symm
        · exact G.cnt2
        · intro hcontr; rw [hflags] at hcontr; exact absurd hcontr (by simp)
        · intro hcontr; rw [hflags] at hcontr; exact absurd hcontr (by simp)
        · intro _; exact hflags
        · intro _; exact ⟨Nat.le_refl 1, fun _ => rfl⟩
        · intro hne; exact absurd hW hne
        · intro _; exact G.notFinWinner (by rw [hW]; simp)
        · intro hfin; rw [hW] at hfin; exact absurd hfin (by simp)
      · rw [Function.update_noteq hgg]
        exact hI.ginv g
  · rw [joinApply_eq1 s caller gid inputs hj1]
    constructor
    · intro g hg
      dsimp only at hg ⊢
      rw [Function.update_noteq (by omega)]
      exact hI.fresh g hg
    · intro g
      dsimp only
      by_cases hgg : g = gid
      · subst hgg
        rw [Function.update_same]
        constructor
        · exact G.len1
        · exact initDeck_length _ _ G.len2
        · exact G.cnt1
        · exact (aliveOf_initDeck _ _ G.len2).symm
        · intro hcontr; rw [hflags] at hcontr; exact absurd hcontr (by simp)
        · intro hcontr; rw [hflags] at hcontr; exact absurd hcontr (by simp)
        · intro hcontr; exact absurd hcontr (by simp)
        · intro hcontr; exact absurd hcontr (by simp)
        · intro _
          exact hwj.2 hj1
        · intro _; exact G.notFinWinner (by rw [hW]; simp)
        · intro hcontr; exact absurd hcontr (by simp)
      · rw [Function.update_noteq hgg]
        exact hI.ginv g

theorem get?_of_lt (l : List Card) (i : Nat) (h : i < l.length) :
    l.get? i = some (l.getD i default) := by
  induction l generalizing i with
  | nil => simp at h
  | cons hd tl ih =>
    cases i with
    | zero => rfl
    | succ j =>
      simp only [List.length_cons] at h
      simpa using ih j (by omega)

theorem processBattle_ok_shape (g g2 : Game) (hb : processBattle g = .ok g2) :
    g2.currentRound = g.currentRound + 1 ∧ g2.hasPlayedCard = (false, false) := by
  unfold processBattle at hb
  split at hb
  · split_ifs at hb
    have hb2 := Except.ok.inj hb
    subst hb2
    unfold battleFinish finishWinner battleKill
    split_ifs <;> exact ⟨rfl, rfl⟩
  · exact absurd hb (by simp)

theorem ginv_processBattle (g g2 : Game) (hg : GInv g)
    (hst : g.state = GState.Playing) (hfl : g.hasPlayedCard = (true, true))
    (hb : processBattle g = .ok g2) : GInv g2 := by
  obtain ⟨hi1, ha1⟩ := hg.played1 (by rw [hfl])
  obtain ⟨hi2, ha2⟩ := hg.played2 (by rw [hfl])
  have hq1 : g.cards.1.get? g.currentPlayedCards.1 =
      some (g.cards.1.getD g.currentPlayedCards.1 default) :=
    get?_of_lt _ _ (by rw [hg.len1]; exact hi1)
  have hq2 : g.cards.2.get? g.currentPlayedCards.2 =
      some (g.cards.2.getD g.currentPlayedCards.2 default) :=
    get?_of_lt _ _ (by rw [hg.len2]; exact hi2)
  have hk1 := aliveOf_set_kill g.cards.1 g.currentPlayedCards.1 _ hq1 ha1
  have hk2 := aliveOf_set_kill g.cards.2 g.currentPlayedCards.2 _ hq2 ha2
  have heq : g.aliveCount.1 = g.aliveCount.2 := hg.eqCounts (by rw [hst]; simp)
  have hwin : g.winner = 0 := hg.notFinWinner (by rw [hst]; simp)
  unfold processBattle at hb
  rw [hq1, hq2] at hb
  simp only at hb
  split_ifs at hb with hz1 hz2 hz3
  have hb2 := Except.ok.inj hb
  subst hb2
  simp only [battleFinish, battleKill, finishWinner]
  split_ifs with hend hw1 hw2
  · exact absurd hw1 (by omega)
  · exact absurd hw2 (by omega)
  · constructor
    · simpa using hg.len1
    · simpa using hg.len2
    · dsimp only; rw [hg.cnt1]; omega
    · dsimp only; rw [hg.cnt2]; omega
    · intro hcontr; exact Bool.noConfusion hcontr
    · intro hcontr; exact Bool.noConfusion hcontr
    · intro _; rfl
    · intro hcontr; exact GState.noConfusion hcontr
    · intro _; dsimp only; omega
    · intro hne; exact absurd rfl hne
    · intro _; exact ⟨by dsimp only; omega, by dsimp only; omega, hwin⟩
  · constructor
    · simpa using hg.len1
    · simpa using hg.len2
    · dsimp only; rw [hg.cnt1]; omega
    · dsimp only; rw [hg.cnt2]; omega
    · intro hcontr; exact Bool.noConfusion hcontr
    · intro hcontr; exact Bool.noConfusion hcontr
    · intro _; rfl
    · intro hcontr; exact GState.noConfusion (hst.symm.trans hcontr)
    · intro _; dsimp only; omega
    · intro _; exact hwin
    · intro hcontr; exact GState.noConfusion (hst.symm.trans hcontr)

theorem ginv_playSet (s : CState) (caller gid idx : Nat)
    (hg : GInv (s.games gid)) (hst : (s.games gid).state = GState.Playing)
    (hidx : idx < 6)
    (halive : ((getP (s.games gid).cards (playerIndexOf s gid caller)).getD idx
      default).isAlive = true) :
    GInv (playSet s caller gid idx) := by
  unfold playSet playerIndexOf
  unfold playerIndexOf at halive
  by_cases hc : caller = (s.games gid).players.1
  · rw [if_pos hc] at halive ⊢
    dsimp only [setP, getP] at halive ⊢
    constructor
    · exact hg.len1
    · exact hg.len2
    · exact hg.cnt1
    · exact hg.cnt2
    · intro _; exact ⟨hidx, halive⟩
    · intro hcontr; exact hg.played2 hcontr
    · intro hcontr; exact GState.noConfusion (hst.symm.trans hcontr)
    · intro hcontr; exact GState.noConfusion (hst.symm.trans hcontr)
    · intro _; exact hg.eqCounts (by rw [hst]; exact fun hcontr => GState.noConfusion hcontr)
    · intro _; exact hg.notFinWinner (by rw [hst]; exact fun hcontr => GState.noConfusion hcontr)
    · intro hcontr; exact GState.noConfusion (hst.symm.trans hcontr)
  · rw [if_neg hc] at halive ⊢
    dsimp only [setP, getP] at halive ⊢
    constructor
    · exact hg.len1
    · exact hg.len2
    · exact hg.cnt1
    · exact hg.cnt2
    · intro hcontr; exact hg.played1 hcontr
    · intro _; exact ⟨hidx, halive⟩
    · intro hcontr; exact GState.noConfusion (hst.symm.trans hcontr)
    · intro hcontr; exact GState.noConfusion (hst.symm.trans hcontr)
    · intro _; exact hg.eqCounts (by rw [hst]; exact fun hcontr => GState.noConfusion hcontr)
    · intro _; exact hg.notFinWinner (by rw [hst]; exact fun hcontr => GState.noConfusion hcontr)
    · intro hcontr; exact GState.noConfusion (hst.symm.trans hcontr)

theorem inv_play (s : CState) (caller gid idx : Nat) (s2 : CState)
    (hI : Inv s) (h : playCard s caller gid idx = .ok s2) : Inv s2 := by
  unfold playCard at h
  split_ifs at h with h1 h2 h3 h4 h5 h6 h7
  · -- both flags set: battle branch
    split at h
    case _ gB hpb =>
      have hb2 := Except.ok.inj h
      subst hb2
      have hgset : GInv (playSet s caller gid idx) :=
        ginv_playSet s caller gid idx (hI.ginv gid) h3 (by omega) h5
      have hstset : (playSet s caller gid idx).state = GState.Playing := h3
      have hflset : (playSet s caller gid idx).hasPlayedCard = (true, true) := by
        obtain ⟨h71, h72⟩ := (Bool.and_eq_true _ _).mp h7
        rw [Prod.ext_iff]
        exact ⟨h71, h72⟩
      have hgB := ginv_processBattle _ _ hgset hstset hflset hpb
      constructor
      · intro g hg
        dsimp only at hg ⊢
        rw [Function.update_noteq (by omega)]
        exact hI.fresh g hg
      · intro g
        dsimp only
        by_cases hgg : g = gid
        · subst hgg; rw [Function.update_same]; exact hgB
        · rw [Function.update_noteq hgg]; exact hI.ginv g
    case _ e hpb => exact absurd h (by simp)
  · -- only one flag set: no battle
    have hb2 := Except.ok.inj h
    subst hb2
    have hgset : GInv (playSet s caller gid idx) :=
      ginv_playSet s caller gid idx (hI.ginv gid) h3 (by omega) h5
    constructor
    · intro g hg
      dsimp only at hg ⊢
      rw [Function.update_noteq (by omega)]
      exact hI.fresh g hg
    · intro g
      dsimp only
      by_cases hgg : g = gid
      · subst hgg; rw [Function.update_same]; exact hgset
      · rw [Function.update_noteq hgg]; exact hI.ginv g

theorem inv_of_reachable (s : CState) (h : Reachable s) : Inv s := by
  induction h with
  | init => exact inv_init
  | create s caller gid s2 _ heq ih => exact inv_create s caller gid s2 ih heq
  | join s caller gid inputs s2 _ heq ih => exact inv_join s caller gid inputs s2 ih heq
  | play s caller gid idx s2 _ heq ih => exact inv_play s caller gid idx s2 ih heq

theorem reach_stepCreate (s : CState) (caller : Nat) (h : Reachable s) :
    Reachable (stepCreate s caller) := by
  unfold stepCreate
  cases hc : createGame s caller with
  | ok p =>
    obtain ⟨gid, s2⟩ := p
    exact Reachable.create s caller gid s2 h hc
  | error e => exact h

theorem reach_stepJoin (s : CState) (caller gid : Nat) (inputs : Nat → Nat) (h : Reachable s) :
    Reachable (stepJoin s caller gid inputs) := by
  unfold stepJoin
  cases hc : joinGame s caller gid inputs with
  | ok s2 => exact Reachable.join s caller gid inputs s2 h hc
  | error e => exact h

theorem reach_stepPlay (s : CState) (caller gid idx : Nat) (h : Reachable s) :
    Reachable (stepPlay s caller gid idx) := by
  unfold stepPlay
  cases hc : playCard s caller gid idx with
  | ok s2 => exact Reachable.play s caller gid idx s2 h hc
  | error e => exact h

/-- A deck submission of six zero (Eagle) card types. -/
def deckZero : Nat → Nat := fun _ => 0

/-- Trace: address 1 creates game 0. -/
def tA : CState := stepCreate initState 1

/-- Trace: address 1 joins game 0 (slot 0). -/
def tB : CState := stepJoin tA 1 0 deckZero

/-- Trace: address 2 joins game 0 (slot 1); game 0 is now Playing. -/
def tC : CState := stepJoin tB 2 0 deckZero

/-- One full round in game 0: player 1 then player 2 submit card `k`; the
second call resolves the battle. -/
def tRound (s : CState) (k : Nat) : CState := stepPlay (stepPlay s 1 0 k) 2 0 k

/-- The game of the trace after `k` completed rounds. -/
def tGame (k : Nat) : CState := (List.range k).foldl tRound tC

theorem reach_tC : Reachable tC :=
  reach_stepJoin _ _ _ _ (reach_stepJoin _ _ _ _ (reach_stepCreate _ _ Reachable.init))

theorem reach_tGame (k : Nat) : Reachable (tGame k) := by
  induction k with
  | zero => exact reach_tC
  | succ n ih =>
    have hsplit : tGame (n + 1) = tRound (tGame n) n := by
      unfold tGame
      rw [List.range_succ, List.foldl_append]
      rfl
    rw [hsplit]
    exact reach_stepPlay _ _ _ _ (reach_stepPlay _ _ _ _ ih)

/-- C1 counterexample: in the full 6-round game of the trace (addresses 1 and
2, all battles under the both-cards-die rule), the resolution that makes an
`aliveCount` reach 0 makes both reach 0; it sets the state to `Finished`, but
the winner is the zero address, not the other player — there is no player
whose `aliveCount` is non-zero. -/
theorem bothDie_final_resolution_no_winner :
    playCard (stepPlay (tGame 5) 1 0 5) 2 0 5 = .ok (tGame 6) ∧
    ((tGame 5).games 0).state = GState.Playing ∧
    ((tGame 5).games 0).aliveCount = (1, 1) ∧
    ((tGame 6).games 0).state = GState.Finished ∧
    ((tGame 6).games 0).players = (1, 2) ∧
    ((tGame 6).games 0).winner = 0 ∧
    ((tGame 6).games 0).aliveCount = (0, 0) :=
  ⟨rfl, by decide, by decide, by decide, by decide, by decide, by decide⟩

/-- C1 (amended): in every reachable state of the second `EncryptedCardGameV2`
variant, a game whose state is `Finished` has both alive counts equal to 0 and
its winner unset (the zero address): under the both-cards-die rule the two
alive counts always stay equal, so the resolution that makes one reach 0 makes
both reach 0 and assigns no winner. -/
theorem finished_game_tie_no_winner (s : CState) (h : Reachable s) (gid : Nat)
    (hf : (s.games gid).state = GState.Finished) :
    (s.games gid).aliveCount = (0, 0) ∧ (s.games gid).winner = 0 := by
  have hi := (inv_of_reachable s h).ginv gid
  obtain ⟨ha1, ha2, hw⟩ := hi.finTie hf
  refine ⟨?_, hw⟩
  rw [Prod.ext_iff]
  exact ⟨ha1, ha2⟩

/-- C1 witness: the amended claim evaluated on the concrete finished game. -/
theorem finished_game_tie_no_winner_witness :
    ((tGame 6).games 0).state = GState.Finished ∧
    ((tGame 6).games 0).aliveCount = (0, 0) ∧ ((tGame 6).games 0).winner = 0 :=
  ⟨by decide,
   finished_game_tie_no_winner (tGame 6) (reach_tGame 6) 0 (by decide)⟩

/-- Trace for C3: address 3 creates game 0 and game 1 (`createGame` of this
variant does not record the creator in `playerToGame`). -/
def u2 : CState := stepCreate (stepCreate initState 3) 3

/-- Trace for C3: address 1 joins game 0, so `playerToGame[1]` is set to the
game id 0, which is indistinguishable from the `no game` sentinel. -/
def u3 : CState := stepJoin u2 1 0 deckZero

/-- Trace for C3: address 1 also joins game 1 while game 0 is unfinished. -/
def u4 : CState := stepJoin u3 1 1 deckZero

/-- C3: the registry invariant is violated by the code.  After address 1 joins
game 0 (which sets `playerToGame[1] = 0`, colliding with the `no game`
sentinel value 0), a second `joinGame` into game 1 is accepted instead of being
rejected with `Already in another game`, leaving address 1 an assigned player
of two games that are both in `Waiting` (not `Finished`). -/
theorem registry_invariant_game_zero_break :
    (u3.games 0).players.1 = 1 ∧ (u3.games 0).state = GState.Waiting ∧
    u3.playerToGame 1 = 0 ∧
    joinGame u3 1 1 deckZero = .ok u4 ∧
    (u4.games 0).players.1 = 1 ∧ (u4.games 1).players.1 = 1 ∧
    (u4.games 0).state = GState.Waiting ∧ (u4.games 1).state = GState.Waiting :=
  ⟨by decide, by decide, by decide, rfl, by decide, by decide, by decide, by decide⟩

/-- C4: in every reachable state, for every game and both player slots, the
cached `aliveCount` equals the number of `isAlive = true` cards in that
player's 6-card deck (this also covers every joined slot after every completed
call). -/
theorem aliveCount_matches_decks (s : CState) (h : Reachable s) (gid slot : Nat)
    (hslot : slot < 2) :
    getP (s.games gid).aliveCount slot = aliveOf (getP (s.games gid).cards slot) := by
  have hi := (inv_of_reachable s h).ginv gid
  interval_cases slot
  · exact hi.cnt1
  · exact hi.cnt2

/-- C4 witness: the invariant evaluated on a concrete reachable mid-game
state (after 3 of 6 rounds, slot 0 has 3 alive cards). -/
theorem aliveCount_matches_decks_witness :
    (0 : Nat) < 2 ∧
    getP ((tGame 3).games 0).aliveCount 0 = aliveOf (getP ((tGame 3).games 0).cards 0) :=
  ⟨by decide, aliveCount_matches_decks (tGame 3) (reach_tGame 3) 0 0 (by decide)⟩

theorem newCard_eq (v : Nat) :
    newCard v =
      { cardType := if v = 0 ∨ v = 1 ∨ v = 2 then v else 0, health := 2, isAlive := true } := by
  by_cases h : v = 0 ∨ v = 1 ∨ v = 2
  · rcases h with rfl | rfl | rfl <;> rfl
  · rw [if_neg h]
    push_neg at h
    unfold newCard FHE.eq FHE.or FHE.select FHE.asEuint8
    have hb : ((v == 0 || v == 1) || v == 2) = false := by
      simp only [Bool.or_eq_false_iff, beq_eq_false_iff_ne]
      exact ⟨⟨h.1, h.2.1⟩, h.2.2⟩
    simp only [hb]
    rfl

/-- C5: in a successful `joinGame` of the second `EncryptedCardGameV2`
variant, each of the six stored cards of the joining slot has its confidential
type equal to the submitted plaintext when that plaintext is in {0,1,2} and
equal to 0 otherwise, health 2 and `isAlive = true`; moreover the call is
never rejected because of an out-of-range value: whether `joinGame` succeeds
does not depend on the submitted values at all.  The length hypothesis
reflects the fixed `Card[6]` deck type of the storage declaration. -/
theorem joinGame_card_normalization (s : CState) (caller gid : Nat)
    (inputs : Nat → Nat) (s2 : CState)
    (hlen : (getP (s.games gid).cards (s.games gid).playersJoined).length = 6)
    (h : joinGame s caller gid inputs = .ok s2) :
    (∀ i, i < 6 →
      (getP (s2.games gid).cards (s.games gid).playersJoined).getD i default =
        { cardType := if inputs i = 0 ∨ inputs i = 1 ∨ inputs i = 2 then inputs i else 0,
          health := 2, isAlive := true }) ∧
    (∀ inputs2 : Nat → Nat, ∃ s3, joinGame s caller gid inputs2 = .ok s3) := by
  unfold joinGame at h
  split_ifs at h with h1 h2 h3 h4 h5
  have hb2 := Except.ok.inj h
  subst hb2
  constructor
  · intro i hi
    rcases (by omega : (s.games gid).playersJoined = 0 ∨ (s.games gid).playersJoined = 1)
      with hj | hj
    · rw [joinApply_eq0 s caller gid inputs hj, hj]
      rw [hj] at hlen
      dsimp only [getP] at hlen ⊢
      rw [Function.update_same]
      dsimp only
      rw [getD_initDeck inputs _ hlen i hi, newCard_eq]
    · rw [joinApply_eq1 s caller gid inputs hj, hj]
      rw [hj] at hlen
      dsimp only [getP] at hlen ⊢
      rw [Function.update_same]
      dsimp only
      rw [getD_initDeck inputs _ hlen i hi, newCard_eq]
  · intro inputs2
    refine ⟨joinApply s caller gid inputs2, ?_⟩
    unfold joinGame
    rw [if_neg (not_not_intro h1), if_neg (not_not_intro h2), if_neg h3, if_neg h4, if_neg h5,
      if_neg h3]

/-- C5 witness: joining with the out-of-range type 7 in the first slot stores
type 0, health 2, alive; the in-range type 2 in the third slot is kept. -/
theorem joinGame_card_normalization_witness :
    (getP (((stepJoin tA 1 0 (fun i => if i = 0 then 7 else i)).games 0)).cards
        ((tA.games 0)).playersJoined).getD 0 default =
      { cardType :=
          if (7 : Nat) = 0 ∨ (7 : Nat) = 1 ∨ (7 : Nat) = 2 then 7 else 0,
        health := 2, isAlive := true } :=
  (joinGame_card_normalization tA 1 0 (fun i => if i = 0 then 7 else i) _
    (by decide) rfl).1 0 (by decide)

/-- C7: over plaintext card types in {0,1,2}, the `player1Wins` circuit of
`processBattle` holds exactly on the pairs (Eagle 0, Snake 2), (Bear 1,
Eagle 0), (Snake 2, Bear 1); `player2Wins` is the same relation on the swapped
pair; and the two are never simultaneously true. -/
theorem battle_relation (a b : Nat) (ha : a < 3) (hb : b < 3) :
    (player1Wins a b = true ↔ ((a, b) = (0, 2) ∨ (a, b) = (1, 0) ∨ (a, b) = (2, 1))) ∧
    player2Wins a b = player1Wins b a ∧
    ¬(player1Wins a b = true ∧ player2Wins a b = true) := by
  interval_cases a <;> interval_cases b <;> exact ⟨by decide, by decide, by decide⟩

/-- C7 witness: the relation evaluated at the pair (Eagle, Snake). -/
theorem battle_relation_witness :
    (0 : Nat) < 3 ∧ (2 : Nat) < 3 ∧
    (player1Wins 0 2 = true ↔
      (((0 : Nat), (2 : Nat)) = (0, 2) ∨ ((0 : Nat), (2 : Nat)) = (1, 0) ∨
        ((0 : Nat), (2 : Nat)) = (2, 1))) ∧
    player2Wins 0 2 = player1Wins 2 0 ∧
    ¬(player1Wins 0 2 = true ∧ player2Wins 0 2 = true) :=
  ⟨by decide, by decide, battle_relation 0 2 (by decide) (by decide)⟩

theorem playerIndexOf_cases (s : CState) (gid caller : Nat) :
    playerIndexOf s gid caller = 0 ∨ playerIndexOf s gid caller = 1 := by
  unfold playerIndexOf
  split_ifs <;> simp

theorem playSet_flags (s : CState) (caller gid idx : Nat) :
    (playSet s caller gid idx).hasPlayedCard =
      setP (s.games gid).hasPlayedCard (playerIndexOf s gid caller) true := rfl

/-- C6: whenever a successful `playCard` call completes the pair (the other
slot had already played this round), the same call runs the battle resolution:
afterwards both `hasPlayedCard` flags are false and `currentRound` is exactly
one greater than before the call; a successful call that does not complete the
pair leaves `currentRound` unchanged. -/
theorem playCard_round_advance (s : CState) (caller gid idx : Nat) (s2 : CState)
    (h : playCard s caller gid idx = .ok s2) :
    (getP (s.games gid).hasPlayedCard (1 - playerIndexOf s gid caller) = true →
      (s2.games gid).hasPlayedCard = (false, false) ∧
      (s2.games gid).currentRound = (s.games gid).currentRound + 1) ∧
    (getP (s.games gid).hasPlayedCard (1 - playerIndexOf s gid caller) = false →
      (s2.games gid).currentRound = (s.games gid).currentRound) := by
  unfold playCard at h
  split_ifs at h with h1 h2 h3 h4 h5 h6 h7
  · -- both flags set after recording: battle resolution runs
    split at h
    case _ gB hpb =>
      have hb2 := Except.ok.inj h
      subst hb2
      have hshape := processBattle_ok_shape _ _ hpb
      constructor
      · intro _
        dsimp only
        rw [Function.update_same]
        exact ⟨hshape.2, hshape.1⟩
      · intro hother
        exfalso
        rw [playSet_flags] at h7
        rcases playerIndexOf_cases s gid caller with hp | hp <;>
          (rw [hp] at h7 hother; dsimp only [setP, getP] at h7 hother;
           rw [hother] at h7; exact Bool.noConfusion h7)
    case _ e hpb => exact absurd h (by simp)
  · -- the pair is not complete: no battle, round unchanged
    have hb2 := Except.ok.inj h
    subst hb2
    constructor
    · intro hother
      exfalso
      apply h7
      rw [playSet_flags]
      rcases playerIndexOf_cases s gid caller with hp | hp <;>
        (rw [hp] at hother ⊢; dsimp only [setP, getP] at hother ⊢;
         rw [hother]; rfl)
    · intro _
      dsimp only
      rw [Function.update_same]
      rfl

/-- C6 witness: the first submission of round 0 leaves the round at 0; the
second submission of round 0 resolves the battle, clears both flags and
advances the round to 1. -/
theorem playCard_round_advance_witness :
    (((stepPlay tC 1 0 0).games 0).currentRound = ((tC).games 0).currentRound) ∧
    (((tGame 1).games 0).hasPlayedCard = (false, false) ∧
      ((tGame 1).games 0).currentRound = ((stepPlay tC 1 0 0).games 0).currentRound + 1) :=
  ⟨(playCard_round_advance tC 1 0 0 (stepPlay tC 1 0 0) rfl).2 (by decide),
   (playCard_round_advance (stepPlay tC 1 0 0) 2 0 0 (tGame 1) rfl).1 (by decide)⟩

/-- C8: a `playCard` call by a player whose `hasPlayedCard` flag is already
true in the current round is rejected: the call reverts (so the entire game
state, modelled by the absence of a successor state, is unchanged), and when
the submitted index is a valid index of an alive card — the shape of the
player's own first submission — the rejection reason is exactly
`Already played this round`. -/
theorem playCard_second_submission_rejected (s : CState) (caller gid idx : Nat)
    (hg : gid < s.nextGameId)
    (hp : caller = (s.games gid).players.1 ∨ caller = (s.games gid).players.2)
    (hst : (s.games gid).state = GState.Playing)
    (hplayed : getP (s.games gid).hasPlayedCard (playerIndexOf s gid caller) = true) :
    (∃ e, playCard s caller gid idx = .error e) ∧
    (idx < 6 →
      ((getP (s.games gid).cards (playerIndexOf s gid caller)).getD idx default).isAlive = true →
      playCard s caller gid idx = .error "Already played this round") := by
  unfold playCard
  rw [if_neg (not_not_intro hg), if_neg (not_not_intro hp), if_neg (not_not_intro hst)]
  constructor
  · by_cases h4 : idx < 6
    · rw [if_neg (not_not_intro h4)]
      by_cases h5 : ((getP (s.games gid).cards (playerIndexOf s gid caller)).getD idx
          default).isAlive = true
      · rw [if_neg (not_not_intro h5), if_pos hplayed]
        exact ⟨_, rfl⟩
      · rw [if_pos h5]
        exact ⟨_, rfl⟩
    · rw [if_pos h4]
      exact ⟨_, rfl⟩
  · intro h4 h5
    rw [if_neg (not_not_intro h4), if_neg (not_not_intro h5), if_pos hplayed]

/-- C8 witness: after player 1 submits card 0 in round 0, a second submission
by player 1 (card 1, alive) is rejected with the already-played reason. -/
theorem playCard_second_submission_rejected_witness :
    playCard (stepPlay tC 1 0 0) 1 0 1 = .error "Already played this round" :=
  (playCard_second_submission_rejected (stepPlay tC 1 0 0) 1 0 1
    (by decide) (Or.inl (by decide)) (by decide) (by decide)).2 (by decide) (by decide)

theorem processBattle_error_ne (g : Game) (e : String)
    (hb : processBattle g = .error e) : e ≠ "Game does not exist" := by
  unfold processBattle at hb
  split at hb
  · split_ifs at hb <;> (cases Except.error.inj hb; decide)
  · cases Except.error.inj hb; decide

/-- C9: a `createGame` call whose precondition holds returns the current
`nextGameId` and increments it by exactly one (so ids are unique and strictly
increasing across calls, and `joinGame`/`playCard` never change `nextGameId`);
and each of the five operations guarded by the `gameExists` modifier fails
with the game-not-found reason exactly when the supplied id is at least
`nextGameId`. -/
theorem game_ids_and_existence_guard :
    (∀ (s : CState) (caller : Nat),
      (s.playerToGame caller = 0 ∨ (s.games (s.playerToGame caller)).state = GState.Finished) →
      ∃ s2, createGame s caller = .ok (s.nextGameId, s2) ∧
        s2.nextGameId = s.nextGameId + 1) ∧
    (∀ (s : CState) (caller gid : Nat) (inputs : Nat → Nat) (s2 : CState),
      joinGame s caller gid inputs = .ok s2 → s2.nextGameId = s.nextGameId) ∧
    (∀ (s : CState) (caller gid idx : Nat) (s2 : CState),
      playCard s caller gid idx = .ok s2 → s2.nextGameId = s.nextGameId) ∧
    (∀ (s : CState) (caller gid : Nat) (inputs : Nat → Nat),
      joinGame s caller gid inputs = .error "Game does not exist" ↔ s.nextGameId ≤ gid) ∧
    (∀ (s : CState) (caller gid idx : Nat),
      playCard s caller gid idx = .error "Game does not exist" ↔ s.nextGameId ≤ gid) ∧
    (∀ (s : CState) (gid : Nat),
      getGameInfo s gid = .error "Game does not exist" ↔ s.nextGameId ≤ gid) ∧
    (∀ (s : CState) (gid p : Nat),
      getPlayerCards s gid p = .error "Game does not exist" ↔ s.nextGameId ≤ gid) ∧
    (∀ (s : CState) (gid p : Nat),
      getAliveCount s gid p = .error "Game does not exist" ↔ s.nextGameId ≤ gid) := by
  refine ⟨?_, ?_, ?_, ?_, ?_, ?_, ?_, ?_⟩
  · intro s caller hpre
    unfold createGame
    rw [if_neg (not_not_intro hpre)]
    exact ⟨_, rfl, rfl⟩
  · intro s caller gid inputs s2 h
    unfold joinGame at h
    split_ifs at h
    cases Except.ok.inj h
    rfl
  · intro s caller gid idx s2 h
    unfold playCard at h
    split_ifs at h
    · split at h
      · cases Except.ok.inj h; rfl
      · exact absurd h (by simp)
    · cases Except.ok.inj h; rfl
  · intro s caller gid inputs
    constructor
    · intro he
      by_contra hge
      push_neg at hge
      unfold joinGame at he
      rw [if_neg (not_not_intro hge)] at he
      split_ifs at he <;>
        first
          | (cases Except.error.inj he)
          | exact absurd he (by simp)
    · intro hge
      unfold joinGame
      rw [if_pos (by omega)]
  · intro s caller gid idx
    constructor
    · intro he
      by_contra hge
      push_neg at hge
      unfold playCard at he
      rw [if_neg (not_not_intro hge)] at he
      split_ifs at he <;>
        first
          | (cases Except.error.inj he)
          | (cases hpb2 : processBattle (playSet s caller gid idx) with
              | ok gB =>
                  rw [hpb2] at he
                  exact absurd he (by simp)
              | error e2 =>
                  rw [hpb2] at he
                  exact absurd (Except.error.inj he) (processBattle_error_ne _ _ hpb2))
          | exact absurd he (by simp)
    · intro hge
      unfold playCard
      rw [if_pos (by omega)]
  · intro s gid
    constructor
    · intro he
      by_contra hge
      push_neg at hge
      unfold getGameInfo at he
      rw [if_neg (not_not_intro hge)] at he
      exact absurd he (by simp)
    · intro hge
      unfold getGameInfo
      rw [if_pos (by omega)]
  · intro s gid p
    constructor
    · intro he
      by_contra hge
      push_neg at hge
      unfold getPlayerCards at he
      rw [if_neg (not_not_intro hge)] at he
      split_ifs at he <;>
        first
          | (cases Except.error.inj he)
          | exact absurd he (by simp)
    · intro hge
      unfold getPlayerCards
      rw [if_pos (by omega)]
  · intro s gid p
    constructor
    · intro he
      by_contra hge
      push_neg at hge
      unfold getAliveCount at he
      rw [if_neg (not_not_intro hge)] at he
      split_ifs at he <;>
        first
          | (cases Except.error.inj he)
          | exact absurd he (by simp)
    · intro hge
      unfold getAliveCount
      rw [if_pos (by omega)]

/-- C9 witness: the first `createGame` on a fresh deployment returns id 0 and
bumps `nextGameId` to 1, and a `joinGame` on the then-nonexistent game 1 fails
with the game-not-found reason. -/
theorem game_ids_and_existence_guard_witness :
    (∃ s2, createGame initState 1 = .ok (initState.nextGameId, s2) ∧
      s2.nextGameId = initState.nextGameId + 1) ∧
    joinGame tA 2 1 deckZero = .error "Game does not exist" :=
  ⟨game_ids_and_existence_guard.1 initState 1 (Or.inl rfl),
   (game_ids_and_existence_guard.2.2.2.1 tA 2 1 deckZero).mpr (by decide)⟩

end V2

namespace V1

/-- The `Game` struct of the first `EncryptedCardGameV2` variant.  The source
declares `Card[6][2] cards` with the comment `[cardIndex][playerIndex]`; in
Solidity `Card[6][2]` is an array of 2 elements, each a `Card[6]`, so the
outer index is bounded by 2 and the inner by 6.  `cards` is modelled as a
list of rows so this bound structure is kept. -/
structure Game where
  state : GState
  players : Nat × Nat
  playersJoined : Nat
  currentRound : Nat
  cards : List (List Card)
  aliveCount : Nat × Nat
  currentPlayedCards : Nat × Nat
  hasPlayedCard : Bool × Bool
  winner : Nat
deriving DecidableEq

/-- Default storage value of a first-variant `Game`: the `Card[6][2]`
declaration yields 2 rows of 6 zeroed cards. -/
def defaultGame : Game :=
  { state := GState.Waiting
    players := (0, 0)
    playersJoined := 0
    currentRound := 0
    cards := List.replicate 2 (List.replicate 6 default)
    aliveCount := (0, 0)
    currentPlayedCards := (0, 0)
    hasPlayedCard := (false, false)
    winner := 0 }

/-- Contract storage of the first variant. -/
structure CState where
  nextGameId : Nat
  games : Nat → Game
  playerToGame : Nat → Nat

/-- Freshly deployed first-variant contract. -/
def initState : CState :=
  { nextGameId := 0, games := fun _ => defaultGame, playerToGame := fun _ => 0 }

/-- Bounds-checked read `cards[i][j]`; an out-of-range index is a Solidity
panic, modelled as an error. -/
def get2 (rows : List (List Card)) (i j : Nat) : Except String Card :=
  match rows.get? i with
  | none => .error "panic: array index out of bounds"
  | some row =>
    match row.get? j with
    | none => .error "panic: array index out of bounds"
    | some c => .ok c

/-- Bounds-checked write `cards[i][j] = c`. -/
def set2 (rows : List (List Card)) (i j : Nat) (c : Card) : Except String (List (List Card)) :=
  match rows.get? i with
  | none => .error "panic: array index out of bounds"
  | some row =>
    if j < row.length then .ok (rows.set i (row.set j c))
    else .error "panic: array index out of bounds"

/-- `createGame()` of the first variant: unlike the second variant it also
records `playerToGame[msg.sender] = gameId`. -/
def createGame (s : CState) (caller : Nat) : Except String (Nat × CState) :=
  if ¬ (s.playerToGame caller = 0 ∨ (s.games (s.playerToGame caller)).state = GState.Finished) then
    .error "Already in a game"
  else
    let gameId := s.nextGameId
    let g := { s.games gameId with
                 state := GState.Waiting, playersJoined := 0, currentRound := 0 }
    .ok (gameId,
      { s with nextGameId := gameId + 1,
               games := Function.update s.games gameId g,
               playerToGame := Function.update s.playerToGame caller gameId })

/-- The card-initialization loop of the first variant's `joinGame` (lines
99-119): `for i in 0..5` writes `game.cards[i][playerIndex]`, i.e. the OUTER
index is the loop counter.  The per-card validation/normalization is the same
computation as in the second variant (`V2.newCard`). -/
def initCards (cards : List (List Card)) (playerIndex : Nat) (inputs : Nat → Nat) :
    Except String (List (List Card)) :=
  (List.range 6).foldlM (fun cs i => set2 cs i playerIndex (V2.newCard (inputs i))) cards

/-- `joinGame` of the first variant. -/
def joinGame (s : CState) (caller gameId : Nat) (inputs : Nat → Nat) : Except String CState :=
  if ¬ gameId < s.nextGameId then .error "Game does not exist"
  else if ¬ (s.games gameId).state = GState.Waiting then .error "Invalid game state"
  else if ¬ (s.games gameId).playersJoined < 2 then .error "Game is full"
  else if ¬ ((s.games gameId).players.1 ≠ caller ∧ (s.games gameId).players.2 ≠ caller) then
    .error "Already joined this game"
  else if ¬ (s.playerToGame caller = 0 ∨
      (s.games (s.playerToGame caller)).state = GState.Finished) then
    .error "Already in another game"
  else if ¬ (s.games gameId).playersJoined < 2 then .error "Player index out of bounds"
  else
    let playerIndex := (s.games gameId).playersJoined
    let g := { s.games gameId with
                 players := setP (s.games gameId).players playerIndex caller,
                 aliveCount := setP (s.games gameId).aliveCount playerIndex 6 }
    match initCards g.cards playerIndex inputs with
    | .error e => .error e
    | .ok cs =>
      let g2 : Game := { g with cards := cs }
      let g3 : Game := { g2 with playersJoined := g2.playersJoined + 1 }
      let g4 : Game := if g3.playersJoined = 2 then { g3 with state := GState.Playing } else g3
      .ok { s with games := Function.update s.games gameId g4,
                   playerToGame := Function.update s.playerToGame caller gameId }

/-- `processBattle` of the first variant: reads and kills
`cards[card1Index][0]` and `cards[card2Index][1]` (the transposed index
order), then decrements counts, resets flags, advances the round and runs the
same end-of-game check as the second variant. -/
def processBattle (g : Game) : Except String Game :=
  match get2 g.cards g.currentPlayedCards.1 0, get2 g.cards g.currentPlayedCards.2 1 with
  | .ok c1, .ok c2 =>
    match set2 g.cards g.currentPlayedCards.1 0 { c1 with isAlive := false } with
    | .error e => .error e
    | .ok cs1 =>
      match set2 cs1 g.currentPlayedCards.2 1 { c2 with isAlive := false } with
      | .error e => .error e
      | .ok cs2 =>
        if g.aliveCount.1 = 0 then .error "panic: arithmetic underflow"
        else if g.aliveCount.2 = 0 then .error "panic: arithmetic underflow"
        else if 255 ≤ g.currentRound then .error "panic: arithmetic overflow"
        else
          let g2 := { g with cards := cs2,
                             aliveCount := (g.aliveCount.1 - 1, g.aliveCount.2 - 1),
                             hasPlayedCard := (false, false),
                             currentRound := g.currentRound + 1 }
          let g3 :=
            if g2.aliveCount.1 = 0 ∨ g2.aliveCount.2 = 0 then
              let gf := { g2 with state := GState.Finished }
              if gf.aliveCount.2 < gf.aliveCount.1 then { gf with winner := gf.players.1 }
              else if gf.aliveCount.1 < gf.aliveCount.2 then { gf with winner := gf.players.2 }
              else gf
            else g2
          .ok g3
  | _, _ => .error "panic: array index out of bounds"

/-- `playCard` of the first variant: the liveness check reads
`game.cards[cardIndex][playerIndex]` (transposed). -/
def playCard (s : CState) (caller gameId cardIndex : Nat) : Except String CState :=
  if ¬ gameId < s.nextGameId then .error "Game does not exist"
  else if ¬ (caller = (s.games gameId).players.1 ∨ caller = (s.games gameId).players.2) then
    .error "Not a player in this game"
  else if ¬ (s.games gameId).state = GState.Playing then .error "Invalid game state"
  else if ¬ cardIndex < 6 then .error "Invalid card index"
  else
    let playerIndex := if caller = (s.games gameId).players.1 then 0 else 1
    match get2 (s.games gameId).cards cardIndex playerIndex with
    | .error e => .error e
    | .ok c =>
      if ¬ c.isAlive then .error "Card is dead"
      else if getP (s.games gameId).hasPlayedCard playerIndex then
        .error "Already played this round"
      else
        let g := { s.games gameId with
                     currentPlayedCards :=
                       setP (s.games gameId).currentPlayedCards playerIndex cardIndex,
                     hasPlayedCard := setP (s.games gameId).hasPlayedCard playerIndex true }
        if g.hasPlayedCard.1 && g.hasPlayedCard.2 then
          match processBattle g with
          | .ok g2 => .ok { s with games := Function.update s.games gameId g2 }
          | .error e => .error e
        else .ok { s with games := Function.update s.games gameId g }

/-- Run first-variant `createGame`, keeping the old state on revert. -/
def stepCreate (s : CState) (caller : Nat) : CState :=
  match createGame s caller with
  | .ok (_, s1) => s1
  | .error _ => s

/-- Trace for C2: address 1 creates game 0 in the first variant. -/
def tV1 : CState := stepCreate initState 1

/-- C2: the first variant's accesses are NOT all within the bounds of the
`Card[6][2]` declaration.  `Card[6][2]` has outer length 2, but the join loop
writes `cards[i][playerIndex]` for i = 0..5, so a `joinGame` whose checks all
pass (fresh Waiting game, fresh caller, valid proof) panics with an
array-bounds error at i = 2 instead of completing; likewise the declaration
itself rejects outer index 2, which `playCard` would use for any
`cardIndex ≥ 2`. -/
theorem joinGame_transposed_index_panic :
    defaultGame.cards.length = 2 ∧
    get2 defaultGame.cards 2 0 = .error "panic: array index out of bounds" ∧
    (tV1.games 0).state = GState.Waiting ∧
    (tV1.games 0).playersJoined = 0 ∧
    joinGame tV1 2 0 (fun _ => 0) = .error "panic: array index out of bounds" :=
  ⟨by decide, rfl, by decide, by decide, rfl⟩

end V1

namespace Ext

/-- The `Player` struct of the extended `EncryptedCardGame` contract: address,
6-card deck (fully encrypted fields), encrypted alive count, join flag. -/
structure Player where
  playerAddress : Nat
  cards : List Card
  aliveCount : Nat
  hasJoined : Bool
deriving DecidableEq

/-- Default storage value of a `Player`. -/
def defaultPlayer : Player :=
  { playerAddress := 0, cards := List.replicate 6 default, aliveCount := 0, hasJoined := false }

/-- Storage of the single-game extended contract.  `battleResults` is the
fixed-size `euint8[2]` array. -/
structure EState where
  gameState : GState
  players : Player × Player
  playersJoined : Nat
  currentRound : Nat
  currentPlayedCards : Nat × Nat
  hasPlayedCard : Bool × Bool
  battleResults : List Nat
deriving DecidableEq

/-- State after the constructor: `Waiting`, nobody joined, round 0; the
`euint8[2]` results array has its two zeroed slots. -/
def initState : EState :=
  { gameState := GState.Waiting
    players := (defaultPlayer, defaultPlayer)
    playersJoined := 0
    currentRound := 0
    currentPlayedCards := (0, 0)
    hasPlayedCard := (false, false)
    battleResults := List.replicate 2 0 }

/-- One ingested card of the extended variant: type validated in {0,1,2},
health validated in [1,10]; an invalid pair is obliviously replaced by
(type 0, health 1); `isAlive` starts encrypted-true. -/
def newCard (t h : Nat) : Card :=
  let validType1 := FHE.eq t 0
  let validType2 := FHE.eq t 1
  let validType3 := FHE.eq t 2
  let isValidType := FHE.or (FHE.or validType1 validType2) validType3
  let validHealth := FHE.and (FHE.ge h 1) (FHE.le h 10)
  let valid := FHE.and isValidType validHealth
  { cardType := FHE.select valid t (FHE.asEuint8 0)
    health := FHE.select valid h (FHE.asEuint8 1)
    isAlive := FHE.asEbool true }

/-- `joinGame` of the extended variant. -/
def joinGame (s : EState) (caller : Nat) (types healths : Nat → Nat) : Except String EState :=
  if ¬ s.gameState = GState.Waiting then .error "Invalid game state"
  else if ¬ s.playersJoined < 2 then .error "Game is full"
  else if ¬ (s.players.1.hasJoined = false ∨ s.players.1.playerAddress ≠ caller) then
    .error "Player already joined"
  else if ¬ (s.players.2.hasJoined = false ∨ s.players.2.playerAddress ≠ caller) then
    .error "Player already joined"
  else
    let pIdx := s.playersJoined
    let deck := (List.range 6).foldl
      (fun d i => d.set i (newCard (types i) (healths i))) (getP s.players pIdx).cards
    let pl : Player :=
      { playerAddress := caller, cards := deck, aliveCount := FHE.asEuint8 6, hasJoined := true }
    let s2 : EState := { s with players := setP s.players pIdx pl,
                                playersJoined := s.playersJoined + 1 }
    if s2.playersJoined = 2 then .ok { s2 with gameState := GState.Playing }
    else .ok s2

/-- `getCardByIndex`: 6-way oblivious select chain over the deck, seeded with
card 0's type. -/
def getCardByIndex (p : Player) (cardIndex : Nat) : Nat :=
  (List.range 6).foldl
    (fun result i => FHE.select (FHE.eq cardIndex i) (p.cards.getD i default).cardType result)
    (p.cards.getD 0 default).cardType

/-- `getCardHealthByIndex`: oblivious select chain over card healths. -/
def getCardHealthByIndex (p : Player) (cardIndex : Nat) : Nat :=
  (List.range 6).foldl
    (fun result i => FHE.select (FHE.eq cardIndex i) (p.cards.getD i default).health result)
    (p.cards.getD 0 default).health

/-- `getCardAliveByIndex`: oblivious select chain over alive flags. -/
def getCardAliveByIndex (p : Player) (cardIndex : Nat) : Bool :=
  (List.range 6).foldl
    (fun result i => FHE.selectb (FHE.eq cardIndex i) (p.cards.getD i default).isAlive result)
    (p.cards.getD 0 default).isAlive

/-- `calculateWinner`: cyclic type advantage, with a same-type higher-health
tie-break. -/
def calculateWinner (attacker defender attackerHealth defenderHealth : Nat) : Bool :=
  let eagleVsSnake := FHE.and (FHE.eq attacker 0) (FHE.eq defender 2)
  let bearVsEagle := FHE.and (FHE.eq attacker 1) (FHE.eq defender 0)
  let snakeVsBear := FHE.and (FHE.eq attacker 2) (FHE.eq defender 1)
  let hasTypeAdvantage := FHE.or (FHE.or eagleVsSnake bearVsEagle) snakeVsBear
  let sameType := FHE.eq attacker defender
  let higherHealth := FHE.gt attackerHealth defenderHealth
  FHE.or hasTypeAdvantage (FHE.and sameType higherHealth)

/-- `updateAliveCount`: oblivious 0/1 fold over the six alive flags. -/
def updateAliveCount (p : Player) : Player :=
  let count := (List.range 6).foldl
    (fun c i => FHE.add c (FHE.select (p.cards.getD i default).isAlive 1 0))
    (FHE.asEuint8 0)
  { p with aliveCount := count }

/-- `updateCardStatus`: per-slot oblivious kill of the played cards according
to the three-way result code (0 draw: both die; 1: player 2's card dies; 2:
player 1's card dies), then both alive counts are recomputed. -/
def updateCardStatus (s : EState) (result c1i c2i : Nat) : EState :=
  let player1Wins := FHE.eq result 1
  let player2Wins := FHE.eq result 2
  let isDraw := FHE.eq result 0
  let deck1 := (List.range 6).foldl
    (fun cs i =>
      cs.set i { cs.getD i default with
        isAlive := FHE.selectb (FHE.and (FHE.eq c1i i) (FHE.or player2Wins isDraw))
          (FHE.asEbool false) (cs.getD i default).isAlive })
    s.players.1.cards
  let deck2 := (List.range 6).foldl
    (fun cs i =>
      cs.set i { cs.getD i default with
        isAlive := FHE.selectb (FHE.and (FHE.eq c2i i) (FHE.or player1Wins isDraw))
          (FHE.asEbool false) (cs.getD i default).isAlive })
    s.players.2.cards
  let p1 := updateAliveCount { s.players.1 with cards := deck1 }
  let p2 := updateAliveCount { s.players.2 with cards := deck2 }
  { s with players := (p1, p2) }

/-- `resolveBattle` of the extended variant: oblivious lookups, three-way
result code, oblivious survivorship update, then the write
`battleResults[currentRound] = result` (bounds-checked against the
`euint8[2]` declaration), round increment and flag reset.  `checkGameEnd` is
a no-op in the source, so the game state is never set to `Finished` here. -/
def resolveBattle (s : EState) : Except String EState :=
  let t1 := getCardByIndex s.players.1 s.currentPlayedCards.1
  let h1 := getCardHealthByIndex s.players.1 s.currentPlayedCards.1
  let a1 := getCardAliveByIndex s.players.1 s.currentPlayedCards.1
  let t2 := getCardByIndex s.players.2 s.currentPlayedCards.2
  let h2 := getCardHealthByIndex s.players.2 s.currentPlayedCards.2
  let a2 := getCardAliveByIndex s.players.2 s.currentPlayedCards.2
  let bothAlive := FHE.and a1 a2
  let card1Wins := calculateWinner t1 t2 h1 h2
  let card2Wins := calculateWinner t2 t1 h2 h1
  let result := FHE.select (FHE.and bothAlive card1Wins) (FHE.asEuint8 1)
    (FHE.select (FHE.and bothAlive card2Wins) (FHE.asEuint8 2) (FHE.asEuint8 0))
  let s2 := updateCardStatus s result s.currentPlayedCards.1 s.currentPlayedCards.2
  if s.currentRound < s2.battleResults.length then
    let s3 : EState := { s2 with battleResults := s2.battleResults.set s.currentRound result }
    if 255 ≤ s3.currentRound then .error "panic: arithmetic overflow"
    else .ok { s3 with currentRound := s3.currentRound + 1, hasPlayedCard := (false, false) }
  else .error "panic: array index out of bounds"

/-- `playCard` of the extended variant: the submitted encrypted index is
validated obliviously (invalid or dead-card submissions silently fall back to
index 0 — the call never reverts for them), the commitment is recorded, and
the second commitment of a round triggers `resolveBattle` in the same call. -/
def playCard (s : EState) (caller cardIndex : Nat) : Except String EState :=
  if ¬ (caller = s.players.1.playerAddress ∨ caller = s.players.2.playerAddress) then
    .error "Not a valid player"
  else if ¬ s.gameState = GState.Playing then .error "Invalid game state"
  else
    let pIdx := if caller = s.players.1.playerAddress then 0 else 1
    let validIndex := FHE.le cardIndex 5
    let cardIsAlive := getCardAliveByIndex (getP s.players pIdx) cardIndex
    let canPlayCard := FHE.and validIndex cardIsAlive
    let safeIndex := FHE.select canPlayCard cardIndex (FHE.asEuint8 0)
    let s2 : EState := { s with currentPlayedCards := setP s.currentPlayedCards pIdx safeIndex,
                                hasPlayedCard := setP s.hasPlayedCard pIdx true }
    if s2.hasPlayedCard.1 && s2.hasPlayedCard.2 then resolveBattle s2
    else .ok s2

/-- Run extended-variant `joinGame`, keeping the old state on revert. -/
def stepJoin (s : EState) (caller : Nat) (types healths : Nat → Nat) : EState :=
  match joinGame s caller types healths with
  | .ok s1 => s1
  | .error _ => s

/-- Run extended-variant `playCard`, keeping the old state on revert. -/
def stepPlay (s : EState) (caller cardIndex : Nat) : EState :=
  match playCard s caller cardIndex with
  | .ok s1 => s1
  | .error _ => s

/-- Trace for C10: both players join with all-Eagle decks of health 5 (valid
inputs), then two full rounds are played (cards 0 and 1; each round is a
same-type equal-health draw that kills both played cards). -/
def eGame2 : EState :=
  stepPlay (stepPlay (stepPlay (stepPlay
    (stepJoin (stepJoin initState 1 (fun _ => 0) (fun _ => 5)) 2 (fun _ => 0) (fun _ => 5))
    1 0) 2 0) 1 1) 2 1

/-- Trace for C10: the first commitment of the third round succeeds. -/
def eGame2a : EState := stepPlay eGame2 1 2

/-- C10: the write `battleResults[currentRound]` is NOT always in bounds.
After two resolved rounds the game is still `Playing` (nothing on-chain ends
it) with `currentRound = 2`, both players still hold alive cards, and the
first commitment of round 3 is accepted; but the second commitment triggers
`resolveBattle`, whose write `battleResults[2]` falls outside the `euint8[2]`
array and panics, so no game can progress through a third round. -/
theorem battleResults_third_round_panic :
    eGame2.gameState = GState.Playing ∧
    eGame2.currentRound = 2 ∧
    eGame2.battleResults.length = 2 ∧
    playCard eGame2 1 2 = .ok eGame2a ∧
    playCard eGame2a 2 2 = .error "panic: array index out of bounds" :=
  ⟨by decide, by decide, by decide, rfl, rfl⟩

end Ext

end CardGame
